import Mathlib

/-!
Verification of the auto-threading daemon (autothread_daemon.py, auto_thread.py)
against its specification.  The embedding models timestamps as whole seconds
(Int), association lists stand for the JSON dictionaries, and every network
call a reconciliation tick performs is resolved through an explicit oracle
(`Env`) fixed for the tick.
-/

namespace Neon

/-! ## Python-style text primitives over lists of characters -/

/-- Python str.strip: remove leading and trailing whitespace. -/
def pyStrip (l : List Char) : List Char :=
  ((l.dropWhile Char.isWhitespace).reverse.dropWhile Char.isWhitespace).reverse

/-- Python str.lower (the program only compares ASCII text). -/
def pyLower (l : List Char) : List Char :=
  l.map Char.toLower

/-- Characters of l before the first occurrence of sep, all of l when sep does
not occur: Python split(sep)[0]. -/
def takeUntilSub (sep : List Char) : List Char → List Char
  | [] => []
  | c :: cs => if sep.isPrefixOf (c :: cs) then [] else c :: takeUntilSub sep cs

/-- Whether sep occurs in l: Python membership test on substrings. -/
def containsSub (sep : List Char) : List Char → Bool
  | [] => sep.isEmpty
  | c :: cs => sep.isPrefixOf (c :: cs) || containsSub sep cs

/-- Python str.split for a single-character separator. -/
def splitChar (sep : Char) : List Char → List (List Char)
  | [] => [[]]
  | c :: cs =>
      if c == sep then [] :: splitChar sep cs
      else
        match splitChar sep cs with
        | [] => [[c]]
        | p :: ps => (c :: p) :: ps

/-! ## Constants from autothread_daemon.py -/

/-- Telegram user id of the bot account (BOT_ID). -/
def BOT_ID : Nat := 8549153948

def MIN_MESSAGES_FOR_AUTOTHREAD : Nat := 2

def COOLDOWN_AFTER_CREATE_SECONDS : Int := 15

def COOLDOWN_AFTER_AUTOTHREAD_SECONDS : Int := 10

/-- STATE_CLEANUP_AGE_DAYS = 7, converted to seconds. -/
def STATE_CLEANUP_AGE_SECONDS : Int := 7 * 86400

/-- Timestamps in whole seconds (datetime values and message dates). -/
abbrev Time := Int

/-! ## Messages and the Conversation Detector -/

/-- A raw message as fetched from the platform: sender id when one exists,
message date, raw text when any, and the class name of an attached media
object when any. -/
structure RawMsg where
  from_id : Option Nat
  date : Time
  raw_text : Option String
  media : Option String
deriving DecidableEq

/-- has_meaningful_content (autothread_daemon.py lines 165-198): the text is
the first 100 characters of the raw text, stripped; the second component is
the has_media flag.  The media_type string the source also computes is used
for logging only and is not modelled. -/
def has_meaningful_content (m : RawMsg) : List Char × Bool :=
  let text := match m.raw_text with
    | none => []
    | some s => if s.toList.isEmpty then [] else pyStrip (s.toList.take 100)
  (text, m.media.isSome)

/-- A message record as collected by check_for_user_message_mtproto. -/
structure CollectedMsg where
  from_id : Nat
  date : Time
  is_bot : Bool
  text : List Char
  has_media : Bool
deriving DecidableEq

/-- The collection loop of check_for_user_message_mtproto (lines 229-248):
messages without a sender user id (absent from_id, or user_id falsy) are
skipped. -/
def collectMessages (raws : List RawMsg) : List CollectedMsg :=
  raws.filterMap fun m =>
    match m.from_id with
    | none => none
    | some fid =>
        if fid == 0 then none
        else
          let tm := has_meaningful_content m
          some { from_id := fid, date := m.date, is_bot := fid == BOT_ID,
                 text := tm.1, has_media := tm.2 }

def insertByDate (m : CollectedMsg) : List CollectedMsg → List CollectedMsg
  | [] => [m]
  | n :: ns => if m.date ≤ n.date then m :: n :: ns else n :: insertByDate m ns

/-- messages.sort(key=date) (line 251).  The detector result depends only on
the multiset of messages, so any date-sorting function gives the same value;
this is proved through the permutation lemmas below. -/
def sortByDate : List CollectedMsg → List CollectedMsg
  | [] => []
  | m :: ms => insertByDate m (sortByDate ms)

/-- Minimum of a list of dates, none for the empty list. -/
def minDates : List Time → Option Time
  | [] => none
  | d :: ds => some (ds.foldl min d)

/-- A user message that counts for detection: not from the bot, and carrying
non-empty text or media. -/
def isUserContent (m : CollectedMsg) : Bool :=
  !m.is_bot && (!m.text.isEmpty || m.has_media)

/-- Earliest timestamp among the bot messages of a message list. -/
def earliestBotTime (l : List CollectedMsg) : Option Time :=
  minDates ((l.filter (·.is_bot)).map (·.date))

/-- Decision core of check_for_user_message_mtproto (lines 250-292), applied
to the sorted collected messages: bot_messages is the is_bot filter,
user_messages the filter of user messages with content. -/
def detectBody (messages : List CollectedMsg) : Bool :=
  if messages.length < MIN_MESSAGES_FOR_AUTOTHREAD then false
  else if (messages.filter (·.is_bot)).isEmpty then false
  else if (messages.filter isUserContent).isEmpty then false
  else
    match minDates ((messages.filter (·.is_bot)).map (·.date)) with
    | none => false
    | some first_bot_time =>
        !((messages.filter isUserContent).filter (fun m => first_bot_time < m.date)).isEmpty

/-- check_for_user_message_mtproto (autothread_daemon.py lines 200-297), as a
pure function of the fetched messages.  A fetch failure makes the source
return false through its exception handler; the oracle supplies the fetched
messages directly. -/
def check_for_user_message_mtproto (raws : List RawMsg) : Bool :=
  detectBody (sortByDate (collectMessages raws))

/-! ## Title Generator (generate_topic_name, autothread_daemon.py 344-432) -/

/-- Single apostrophe character, kept out of string literals. -/
def sQuote : List Char := [Char.ofNat 39]

/-- Greeting and filler tokens skipped by the first user-text heuristic. -/
def greetingTokens : List (List Char) :=
  ["hi", "hello", "hey", "yo", "?", "test", "ok", "yes", "no"].map String.toList

/-- Python s[:35] plus an ellipsis when the source was longer than 35. -/
def truncEll (s : List Char) : List Char :=
  s.take 35 ++ (if 35 < s.length then "...".toList else [])

/-- One iteration of heuristics 1 and 2 of generate_topic_name (lines
388-403) on a single user text: none means the loop continues with the next
text. -/
def userTextTitle (t : List Char) : Option (List Char) :=
  if greetingTokens.contains (pyLower (pyStrip t)) then none
  else
    let fromQ : Option (List Char) :=
      if t.contains '?' then
        let q := pyStrip (takeUntilSub ['?'] t) ++ ['?']
        if 5 < q.length then some (truncEll q) else none
      else none
    match fromQ with
    | some r => some r
    | none =>
        if 10 < t.length then
          let first := pyStrip (takeUntilSub ['.'] (takeUntilSub ['\n'] t))
          if 5 < first.length then some (truncEll first) else none
        else none

/-- First defined value of f over a list: the for-loop-with-return shape of
the title heuristics. -/
def firstSome {α β : Type} (f : α → Option β) : List α → Option β
  | [] => none
  | a :: rest =>
      match f a with
      | some b => some b
      | none => firstSome f rest

/-- Heuristics 1 and 2 of generate_topic_name: first user text yielding a
title. -/
def titleFromUserTexts (ts : List (List Char)) : Option (List Char) :=
  firstSome userTextTitle ts

/-- Welcome prefixes that make a bot text be skipped by heuristic 3; the
source list holds hey, hi, hello, the wave emoji, and whats-on with an
apostrophe. -/
def botGreetPrefixes : List (List Char) :=
  ["hey".toList, "hi".toList, "hello".toList, "👋".toList,
   "what".toList ++ sQuote ++ "s on".toList]

def starStar : List Char := ['*', '*']

/-- Bold-span half of heuristic 3 (lines 413-416): a line starting with two
stars and holding a closing pair; since the line starts with the separator,
the second split component is the text after it up to the next occurrence. -/
def boldTitle (line : List Char) : Option (List Char) :=
  if starStar.isPrefixOf line && containsSub starStar (line.drop 2) then
    let topic := takeUntilSub starStar (line.drop 2)
    if 3 < topic.length then some (truncEll topic) else none
  else none

/-- Colon-label half of heuristic 3 (lines 417-420). -/
def colonTitle (line : List Char) : Option (List Char) :=
  if 15 < line.length && (line.take 30).contains ':' then
    let topic := pyStrip (takeUntilSub [':'] line)
    if 5 < topic.length
        && !("http".toList.isPrefixOf (pyLower topic))
        && !("note".toList.isPrefixOf (pyLower topic)) then
      some (topic.take 35)
    else none
  else none

/-- Heuristic 3 of generate_topic_name on one stripped line of a bot text
(lines 410-420): a bold-marked span, else a label before a colon. -/
def titleFromBotLine (rawLine : List Char) : Option (List Char) :=
  match boldTitle (pyStrip rawLine) with
  | some r => some r
  | none => colonTitle (pyStrip rawLine)

/-- Heuristic 3 of generate_topic_name for one bot text: skip welcome texts,
else scan its lines. -/
def titleFromBotText (t : List Char) : Option (List Char) :=
  if botGreetPrefixes.any (fun w => w.isPrefixOf (pyLower t)) then none
  else firstSome titleFromBotLine (splitChar '\n' t)

/-- Text-collection loop of generate_topic_name (lines 365-384): texts are
stripped, split by sender; a voice attachment anywhere sets has_voice. -/
def collectTexts (raws : List RawMsg) : List (List Char) × List (List Char) × Bool :=
  raws.foldl
    (fun acc m =>
      let hv := acc.2.2 ||
        (match m.media with
         | some cls => containsSub "Voice".toList cls.toList
         | none => false)
      match m.raw_text with
      | none => (acc.1, acc.2.1, hv)
      | some s =>
          if s.toList.isEmpty then (acc.1, acc.2.1, hv)
          else
            let text := pyStrip s.toList
            match m.from_id with
            | some fid =>
                if fid == BOT_ID then (acc.1, acc.2.1 ++ [text], hv)
                else if fid == 0 then (acc.1, acc.2.1, hv)
                else (acc.1 ++ [text], acc.2.1, hv)
            | none => (acc.1, acc.2.1, hv))
    ([], [], false)

/-- Digit character for n mod 10. -/
def digitChar (n : Nat) : Char := Char.ofNat (48 + n % 10)

/-- Two-digit zero-padded rendering; all values the program formats with it
are below 100 (day of month, hour, minute). -/
def pad2 (n : Nat) : List Char := [digitChar (n / 10), digitChar n]

def monthNames : List (List Char) :=
  ["Jan", "Feb", "Mar", "Apr", "May", "Jun",
   "Jul", "Aug", "Sep", "Oct", "Nov", "Dec"].map String.toList

/-- Abbreviated month name, the strftime %b field. -/
def monthAbbrev (m : Nat) : List Char := monthNames.getD (m - 1) "Jan".toList

/-- Civil calendar date (year, month, day) from days since the Unix epoch,
the standard era-based algorithm. -/
def civilFromDays (z0 : Int) : Int × Nat × Nat :=
  let z := z0 + 719468
  let era : Int := (if 0 ≤ z then z else z - 146096) / 146097
  let doe : Nat := (z - era * 146097).toNat
  let yoe : Nat := (doe - doe / 1460 + doe / 36524 - doe / 146096) / 365
  let doy : Nat := doe - (365 * yoe + yoe / 4 - yoe / 100)
  let mp : Nat := (5 * doy + 2) / 153
  let d : Nat := doy - (153 * mp + 2) / 5 + 1
  let m : Nat := if mp < 10 then mp + 3 else mp - 9
  (((yoe : Int) + era * 400) + (if m ≤ 2 then 1 else 0), m, d)

/-- strftime with the format used by the title fallbacks: month abbreviation,
a space, two-digit day, a space, two-digit hour, a colon, two-digit minute. -/
def strftimeBdHM (t : Time) : List Char :=
  let days := t / 86400
  let sod := (t % 86400).toNat
  let md := civilFromDays days
  monthAbbrev md.2.1 ++ [' '] ++ pad2 md.2.2 ++ [' ']
    ++ pad2 (sod / 3600) ++ [':'] ++ pad2 (sod % 3600 / 60)

/-- generate_topic_name (autothread_daemon.py lines 344-432) as a pure
function of the fetched messages and the wall-clock time.  The source wraps
the whole body in an exception handler whose fallback equals heuristic 5. -/
def generate_topic_name (raws : List RawMsg) (now : Time) : String :=
  let utsBts := collectTexts raws
  match titleFromUserTexts utsBts.1 with
  | some r => String.mk r
  | none =>
      match firstSome titleFromBotText utsBts.2.1 with
      | some r => String.mk r
      | none =>
          if utsBts.2.2 && utsBts.1.isEmpty then
            String.mk ("Voice chat ".toList ++ strftimeBdHM now)
          else
            String.mk ("Chat ".toList ++ strftimeBdHM now)

/-! ## State Store documents -/

/-- Insert-or-replace on an association list; Python dict assignment keeps
insertion order, as this does. -/
def setKey {κ α : Type} [BEq κ] (l : List (κ × α)) (k : κ) (v : α) : List (κ × α) :=
  match l with
  | [] => [(k, v)]
  | (k0, v0) :: rest => if k0 == k then (k, v) :: rest else (k0, v0) :: setKey rest k v

/-- A ledger entry of daemon_state.json.  The timestamp is the parse result
of the stored ISO string: none when the field is missing or unparsable. -/
structure Entry where
  timestamp : Option Time
  source : String := ""
  renamed_to : String := ""
  new_general : Option Nat := none
deriving DecidableEq

/-- Ledger keys: the source formats the pair as the string chat_id colon
topic_id, which is injective in the pair. -/
abbrev Key := Int × Nat

/-- daemon_state.json. -/
structure DaemonState where
  processed : List (Key × Entry) := []
  created_topics : List (Key × Entry) := []
  last_autothread_timestamp : Option Time := none
deriving DecidableEq

/-- Per-forum record in forum_state.json. -/
structure ForumEntry where
  general_topic_id : Option Nat := none
deriving DecidableEq

/-- forum_state.json: forum chat id to its record. -/
abbrev ForumState := List (Int × ForumEntry)

/-- Survival test used by cleanup_old_state: an entry survives iff its
timestamp parsed and is not older than the retention cutoff. -/
def keepEntry (now : Time) (e : Entry) : Bool :=
  match e.timestamp with
  | none => false
  | some ts => !(ts < now - STATE_CLEANUP_AGE_SECONDS)

/-- cleanup_old_state (autothread_daemon.py lines 92-111). -/
def cleanup_old_state (now : Time) (s : DaemonState) : DaemonState :=
  { s with
    processed := s.processed.filter (fun kv => keepEntry now kv.2),
    created_topics := s.created_topics.filter (fun kv => keepEntry now kv.2) }

/-- get_current_general (autothread_daemon.py lines 82-84): the cached inbox
thread id, defaulting to 1 when the forum has no record or the record lacks
the field. -/
def get_current_general (state : ForumState) (chat_id : Int) : Nat :=
  match state.lookup chat_id with
  | some fe => fe.general_topic_id.getD 1
  | none => 1

/-- get_current_general_topic (auto_thread.py lines 47-50); same logic as
get_current_general. -/
def get_current_general_topic (state : ForumState) (chat_id : Int) : Nat :=
  match state.lookup chat_id with
  | some fe => fe.general_topic_id.getD 1
  | none => 1

/-- set_current_general_topic (auto_thread.py lines 53-59), state update. -/
def set_general (state : ForumState) (chat_id : Int) (topic_id : Nat) : ForumState :=
  setKey state chat_id { general_topic_id := some topic_id }

/-! ## File-write model for the persistence claims -/

/-- The two file operations the state savers perform: a plain
open-truncate-write, and an atomic rename. -/
inductive FileOp where
  | writeFile (path : String) (content : String)
  | replaceFile (src : String) (dst : String)
deriving DecidableEq

/-- A directory as an association list path to content. -/
abbrev FileSys := List (String × String)

def writeFs (fs : FileSys) (p : String) (c : String) : FileSys := setKey fs p c

def removeFs (fs : FileSys) (p : String) : FileSys :=
  fs.filter (fun kv => !(kv.1 == p))

def applyOp (fs : FileSys) : FileOp → FileSys
  | .writeFile p c => writeFs fs p c
  | .replaceFile src dst =>
      match fs.lookup src with
      | some c => writeFs (removeFs fs src) dst c
      | none => fs

/-- States observable if the process dies in the middle of one operation: a
plain write first truncates, then appends, so any prefix of the new content
may be on disk; the rename is atomic and has no intermediate state. -/
def midWriteStates (fs : FileSys) : FileOp → List FileSys
  | .writeFile p c => c.toList.inits.map (fun pre => writeFs fs p (String.mk pre))
  | .replaceFile _ _ => []

/-- All states observable if the process dies at any point of an operation
sequence. -/
def crashStates (fs : FileSys) : List FileOp → List FileSys
  | [] => [fs]
  | op :: ops => [fs] ++ midWriteStates fs op ++ crashStates (applyOp fs op) ops

/-- save_state (autothread_daemon.py lines 70-80): write a temp file, then
atomically replace the target.  with_suffix on a .json path appends .tmp to
the name. -/
def save_state_ops (path : String) (content : String) : List FileOp :=
  [.writeFile (path ++ ".tmp") content, .replaceFile (path ++ ".tmp") path]

/-- save_forum_state (auto_thread.py lines 41-44): a plain direct write of
the target, with no temp file. -/
def save_forum_state_ops (path : String) (content : String) : List FileOp :=
  [.writeFile path content]

/-! ## Reconciliation Engine -/

/-- A forum topic as listed by the platform. -/
structure Topic where
  id : Nat
  title : String
  closed : Bool
deriving DecidableEq

/-- Static per-forum configuration (MONITORED_FORUMS). -/
structure ForumConfig where
  name : String := ""
  welcome_message : String := ""
  persistent_topics : List Nat := []
deriving DecidableEq

/-- Oracle for one reconciliation tick: platform responses and the clock,
fixed for the tick.  topics answers the first topic listing,
topicsAfterCreate any listing made after a create call, renameOk and
createOk whether those calls raise, createUpdatesId the topic id extractable
from the create response, ensureCreateOk the create call made inside
ensure_general_exists. -/
structure Env where
  topics : List Topic := []
  topicsAfterCreate : List Topic := []
  raws : List RawMsg := []
  now : Time := 0
  renameOk : Bool := true
  createOk : Bool := true
  createUpdatesId : Option Nat := none
  ensureCreateOk : Bool := true
deriving DecidableEq

/-- Platform mutations and state writes a tick can perform, in order. -/
inductive Mutation where
  | renameThread (chat : Int) (topic : Nat) (title : String) (ok : Bool)
  | createThread (chat : Int) (title : String) (ok : Bool)
  | sendMessage (chat : Int) (thread : Nat) (text : String)
  | saveForumState (s : ForumState)
  | saveDaemonState (s : DaemonState)
deriving DecidableEq

/-- Outcome of one tick for one forum.  The source function returns a bool
and distinguishes these cases by its log line; transitioned corresponds to
returning True, errored to an exception escaping to run_once. -/
inductive TickResult where
  | skippedProtected
  | skippedProcessed
  | skippedCreatedCooldown
  | skippedAutothreadCooldown
  | skippedGlobalCooldown
  | noConversation
  | transitioned
  | errored
deriving DecidableEq

/-- Open topics titled General. -/
def openGenerals (ts : List Topic) : List Topic :=
  ts.filter (fun t => t.title == "General" && !t.closed)

/-- Python max over topics by id; returns the first maximal element. -/
def pickMaxId (l : List Topic) : Option Topic :=
  l.foldl
    (fun acc t =>
      match acc with
      | none => some t
      | some b => if b.id < t.id then some t else some b)
    none

/-- Repair path of ensure_general_exists, entered when the cached inbox topic
is missing or closed: adopt the newest open General, else create one. -/
def ensureRepair (env : Env) (fs0 : ForumState) (ds0 : DaemonState)
    (chat_id : Int) (cfg : ForumConfig) (current_general : Nat) :
    Nat × ForumState × DaemonState × List Mutation :=
  match pickMaxId (openGenerals env.topics) with
  | some g =>
      let fs1 := set_general fs0 chat_id g.id
      (g.id, fs1, ds0, [.saveForumState fs1])
  | none =>
      if !env.ensureCreateOk then
        (current_general, fs0, ds0, [.createThread chat_id "General" false])
      else
        match pickMaxId (openGenerals env.topicsAfterCreate) with
        | some nt =>
            let fs1 := set_general fs0 chat_id nt.id
            let e : Entry := { timestamp := some env.now, source := "ensure_general_exists" }
            let ds1 := { ds0 with
              created_topics := setKey ds0.created_topics (chat_id, nt.id) e }
            (nt.id, fs1, ds1,
              [.createThread chat_id "General" true, .saveForumState fs1,
               .saveDaemonState ds1, .sendMessage chat_id nt.id cfg.welcome_message])
        | none =>
            (current_general, fs0, ds0, [.createThread chat_id "General" true])

/-- ensure_general_exists (autothread_daemon.py lines 434-586).  When the
cached inbox topic is listed and open it is kept with no side effect;
otherwise the repair path runs.  An exception from the create call is caught
by the source and leaves the stale pointer in place. -/
def ensure_general_exists (env : Env) (fs0 : ForumState) (ds0 : DaemonState)
    (chat_id : Int) (cfg : ForumConfig) :
    Nat × ForumState × DaemonState × List Mutation :=
  let current_general := get_current_general fs0 chat_id
  match env.topics.find? (fun t => t.id == current_general) with
  | some t =>
      if t.closed then ensureRepair env fs0 ds0 chat_id cfg current_general
      else (current_general, fs0, ds0, [])
  | none => ensureRepair env fs0 ds0 chat_id cfg current_general

/-- Result dictionary of auto_thread. -/
structure ATResult where
  new_general_id : Option Nat
  renamed_topic_id : Nat
  renamed_to : String
deriving DecidableEq

/-- New-topic-id extraction of auto_thread (lines 143-165): the id carried by
the create response when present, else the first listed topic titled General
other than the current one. -/
def findNewGeneral (env : Env) (current : Nat) : Option Nat :=
  match env.createUpdatesId with
  | some i => some i
  | none =>
      match env.topicsAfterCreate.find? (fun t => t.title == "General" && t.id != current) with
      | some t => some t.id
      | none => none

/-- auto_thread (auto_thread.py lines 89-183).  The rename is best effort: a
failure is logged and ignored.  A create failure raises; the error value
carries the mutations attempted before the raise.  On success the forum
state is updated only when a new topic id was found. -/
def auto_thread (env : Env) (chat_id : Int) (current_topic_id : Nat)
    (new_topic_name : String) (fs : ForumState) :
    Except (List Mutation) (ATResult × ForumState × List Mutation) :=
  let ev : Mutation := .renameThread chat_id current_topic_id new_topic_name env.renameOk
  if !env.createOk then
    .error [ev, .createThread chat_id "General" false]
  else
    let evs : List Mutation := [ev, .createThread chat_id "General" true]
    match findNewGeneral env current_topic_id with
    | none =>
        .ok ({ new_general_id := none, renamed_topic_id := current_topic_id,
               renamed_to := new_topic_name }, fs, evs)
    | some nid =>
        let fs1 := set_general fs chat_id nid
        .ok ({ new_general_id := some nid, renamed_topic_id := current_topic_id,
               renamed_to := new_topic_name }, fs1, evs ++ [.saveForumState fs1])

/-- One reconciliation tick for one forum:
_check_and_autothread_forum_impl (autothread_daemon.py lines 594-694)
together with trigger_auto_thread (lines 299-342).  Returns the outcome, the
persisted forum document, the persisted daemon document, and the ordered
mutations performed.  The cleanup pass runs in memory and is persisted only
by the save that follows a transition, exactly as in the source. -/
def tick (env : Env) (fs0 : ForumState) (ds0 : DaemonState)
    (chat_id : Int) (cfg : ForumConfig) :
    TickResult × ForumState × DaemonState × List Mutation :=
  let eg := ensure_general_exists env fs0 ds0 chat_id cfg
  let current_general := eg.1
  let fs1 := eg.2.1
  let ds1 := eg.2.2.1
  let evs1 := eg.2.2.2
  if current_general ∈ cfg.persistent_topics then
    (.skippedProtected, fs1, ds1, evs1)
  else
    let ds := cleanup_old_state env.now ds1
    let pkey : Key := (chat_id, current_general)
    if (ds.processed.lookup pkey).isSome then
      (.skippedProcessed, fs1, ds1, evs1)
    else
      let created_skip :=
        match ds.created_topics.lookup pkey with
        | none => false
        | some info =>
            match info.timestamp with
            | none => false
            | some ts => decide (env.now - ts < COOLDOWN_AFTER_CREATE_SECONDS)
      if created_skip then
        (.skippedCreatedCooldown, fs1, ds1, evs1)
      else
        let newgen_skip := ds.processed.any fun kv =>
          kv.2.new_general == some current_general &&
            (match kv.2.timestamp with
             | none => false
             | some ts => decide (env.now - ts < COOLDOWN_AFTER_CREATE_SECONDS))
        if newgen_skip then
          (.skippedAutothreadCooldown, fs1, ds1, evs1)
        else
          let global_skip :=
            match ds.last_autothread_timestamp with
            | none => false
            | some ts => decide (env.now - ts < COOLDOWN_AFTER_AUTOTHREAD_SECONDS)
          if global_skip then
            (.skippedGlobalCooldown, fs1, ds1, evs1)
          else if !(check_for_user_message_mtproto env.raws) then
            (.noConversation, fs1, ds1, evs1)
          else
            let topic_name := generate_topic_name env.raws env.now
            match auto_thread env chat_id current_general topic_name fs1 with
            | .error evs2 => (.errored, fs1, ds1, evs1 ++ evs2)
            | .ok (res, fs2, evs2) =>
                let sendEvs : List Mutation :=
                  match res.new_general_id with
                  | some nid => [.sendMessage chat_id nid cfg.welcome_message]
                  | none => []
                let pe : Entry :=
                  { timestamp := some env.now, renamed_to := topic_name,
                    new_general := res.new_general_id }
                let ds2 := { ds with processed := setKey ds.processed pkey pe }
                let ce : Entry := { timestamp := some env.now, source := "auto_thread" }
                let ds3 :=
                  match res.new_general_id with
                  | some nid =>
                      { ds2 with created_topics := setKey ds2.created_topics (chat_id, nid) ce }
                  | none => ds2
                let ds4 := { ds3 with last_autothread_timestamp := some env.now }
                (.transitioned, fs2, ds4,
                  evs1 ++ evs2 ++ sendEvs ++ [.saveDaemonState ds4])

/-- Iterated ticks against a fixed oracle, collecting the outcomes. -/
def runTicks (env : Env) (chat_id : Int) (cfg : ForumConfig) :
    Nat → ForumState → DaemonState → ForumState × DaemonState × List TickResult
  | 0, fs, ds => (fs, ds, [])
  | n + 1, fs, ds =>
      let r := tick env fs ds chat_id cfg
      let rest := runTicks env chat_id cfg n r.2.1 r.2.2.1
      (rest.1, rest.2.1, r.1 :: rest.2.2)

/-! ## Concrete inputs used by witnesses and counterexamples -/

/-- A bot message at the given date. -/
def botRaw (d : Time) (t : String) : RawMsg :=
  { from_id := some BOT_ID, date := d, raw_text := some t, media := none }

/-- A human message at the given date. -/
def userRaw (d : Time) (t : String) : RawMsg :=
  { from_id := some 42, date := d, raw_text := some t, media := none }

/-- A qualifying conversation: a bot welcome followed by a user question. -/
def convRaws : List RawMsg :=
  [botRaw 100 "hello", userRaw 200 "How do I configure the keyboard?"]

/-- The open inbox topic used by the concrete scenarios. -/
def topic5 : Topic := { id := 5, title := "General", closed := false }

/-- Oracle with the inbox topic open, a qualifying conversation inside it,
and a create call that reports topic 6 as the new General. -/
def envConv : Env :=
  { topics := [topic5], raws := convRaws, now := 1000000, createUpdatesId := some 6 }

/-- Forum state pointing forum 10 at inbox thread 5. -/
def fsMain : ForumState := [(10, { general_topic_id := some 5 })]

def cfgEmpty : ForumConfig := {}

/-- Config protecting thread 5. -/
def cfgProt : ForumConfig := { persistent_topics := [5] }

/-- Ledger entry for the C2 scenarios. -/
def entryStale : Entry := { timestamp := some 0, renamed_to := "old name" }

def entryFresh : Entry := { timestamp := some 999999, renamed_to := "old name" }

/-- Ledger whose processed entry for forum 10, thread 5 is far older than the
retention horizon. -/
def dsStale : DaemonState := { processed := [((10, 5), entryStale)] }

/-- Ledger whose processed entry for forum 10, thread 5 is one second old. -/
def dsFresh : DaemonState := { processed := [((10, 5), entryFresh)] }

def entryC7young : Entry := { timestamp := some 999995 }

def entryC7old : Entry := { timestamp := some 999980 }

/-- Ledger with a created entry five seconds old for forum 10, thread 5. -/
def dsC7young : DaemonState := { created_topics := [((10, 5), entryC7young)] }

/-- Ledger with a created entry twenty seconds old for forum 10, thread 5. -/
def dsC7old : DaemonState := { created_topics := [((10, 5), entryC7old)] }

/-- Oracle for the partial-transition scenario: the create call fails. -/
def envC3 : Env := { envConv with createOk := false }

/-- The question of the title-determinism test, with its apostrophe. -/
def dnsQuestion : String :=
  String.mk ("what".toList ++ sQuote ++ "s the best way to cache DNS lookups?".toList)

/-- The default welcome message of the source, with its apostrophe. -/
def welcomeDefault : String :=
  String.mk ("👋 What".toList ++ sQuote ++ "s on your mind?".toList)

/-- Messages of the title-determinism test: a bot greeting, a user greeting,
and the user question. -/
def rawsC6 : List RawMsg :=
  [botRaw 100 welcomeDefault, userRaw 200 "hi", userRaw 300 dnsQuestion]

/-- A user question of 41 characters (40 letters and the question mark). -/
def rawsC5 : List RawMsg :=
  [userRaw 5 "aaaaaaaaaaaaaaaaaaaaaaaaaaaaaaaaaaaaaaaa?"]

/-- Directory holding one old forum document, for the persistence claims. -/
def fsC9 : FileSys := [("forum_state.json", "docA")]

/-! ## Permutation and minimum lemmas for the detector -/

theorem insertByDate_perm (m : CollectedMsg) (l : List CollectedMsg) :
    (insertByDate m l).Perm (m :: l) := by
  induction l with
  | nil => simp [insertByDate]
  | cons n ns ih =>
      unfold insertByDate
      by_cases h : m.date ≤ n.date
      · simp [h]
      · rw [if_neg h]
        exact (ih.cons n).trans (List.Perm.swap m n ns)

theorem sortByDate_perm (l : List CollectedMsg) : (sortByDate l).Perm l := by
  induction l with
  | nil => simp [sortByDate]
  | cons m ms ih =>
      unfold sortByDate
      exact (insertByDate_perm m (sortByDate ms)).trans (ih.cons m)

theorem foldl_min_le_start (d : Time) (ds : List Time) : ds.foldl min d ≤ d := by
  induction ds generalizing d with
  | nil => simp
  | cons x xs ih => exact le_trans (ih (min d x)) (min_le_left d x)

theorem foldl_min_le_mem (d : Time) (ds : List Time) : ∀ x ∈ ds, ds.foldl min d ≤ x := by
  induction ds generalizing d with
  | nil => simp
  | cons y ys ih =>
      intro x hx
      rcases List.mem_cons.mp hx with h | h
      · subst h
        exact le_trans (foldl_min_le_start (min d x) ys) (min_le_right d x)
      · exact ih (min d y) x h

theorem foldl_min_mem (d : Time) (ds : List Time) :
    ds.foldl min d = d ∨ ds.foldl min d ∈ ds := by
  induction ds generalizing d with
  | nil => simp
  | cons y ys ih =>
      rcases ih (min d y) with h | h
      · by_cases hd : d ≤ y
        · left
          simpa [min_eq_left hd] using h
        · right
          rw [List.foldl_cons, h, min_eq_right (le_of_not_le hd)]
          exact List.mem_cons_self y ys
      · right
        exact List.mem_cons_of_mem y h

theorem minDates_eq_some_iff (l : List Time) (t : Time) :
    minDates l = some t ↔ (t ∈ l ∧ ∀ x ∈ l, t ≤ x) := by
  cases l with
  | nil => simp [minDates]
  | cons d ds =>
      simp only [minDates, Option.some.injEq]
      constructor
      · rintro rfl
        refine ⟨?_, ?_⟩
        · rcases foldl_min_mem d ds with h | h
          · rw [h]; exact List.mem_cons_self d ds
          · exact List.mem_cons_of_mem d h
        · intro x hx
          rcases List.mem_cons.mp hx with rfl | h
          · exact foldl_min_le_start _ ds
          · exact foldl_min_le_mem d ds x h
      · rintro ⟨hmem, hlb⟩
        have h1 : ds.foldl min d ≤ t := by
          rcases List.mem_cons.mp hmem with rfl | h
          · exact foldl_min_le_start _ ds
          · exact foldl_min_le_mem d ds t h
        have h2 : t ≤ ds.foldl min d := by
          rcases foldl_min_mem d ds with h | h
          · rw [h]; exact hlb d (List.mem_cons_self d ds)
          · exact hlb _ (List.mem_cons_of_mem d h)
        exact le_antisymm h1 h2

theorem minDates_eq_none_iff (l : List Time) : minDates l = none ↔ l = [] := by
  cases l <;> simp [minDates]

theorem minDates_perm {l l' : List Time} (h : l.Perm l') : minDates l = minDates l' := by
  cases hl : minDates l with
  | none =>
      have : l = [] := (minDates_eq_none_iff l).mp hl
      subst this
      have : l' = [] := h.nil_eq.symm
      subst this
      rfl
  | some t =>
      rw [minDates_eq_some_iff] at hl
      rw [eq_comm, minDates_eq_some_iff]
      exact ⟨h.mem_iff.mp hl.1, fun x hx => hl.2 x (h.mem_iff.mpr hx)⟩

theorem detectBody_iff (l : List CollectedMsg) :
    detectBody l = true ↔
      (2 ≤ l.length ∧ (∃ m ∈ l, m.is_bot = true) ∧
        (∃ m ∈ l, isUserContent m = true) ∧
        ∃ t, earliestBotTime l = some t ∧
          ∃ u ∈ l, isUserContent u = true ∧ t < u.date) := by
  unfold detectBody earliestBotTime MIN_MESSAGES_FOR_AUTOTHREAD
  by_cases h1 : l.length < 2
  · simp only [if_pos h1, Bool.false_eq_true, false_iff]
    rintro ⟨h2, -⟩
    omega
  · rw [if_neg h1]
    by_cases hb : (l.filter (·.is_bot)).isEmpty
    · rw [if_pos hb]
      rw [List.isEmpty_iff, List.filter_eq_nil_iff] at hb
      simp only [Bool.false_eq_true, false_iff]
      rintro ⟨-, ⟨m, hm, hbot⟩, -, -⟩
      exact hb m hm hbot
    · rw [if_neg hb]
      by_cases hu : (l.filter isUserContent).isEmpty
      · rw [if_pos hu]
        rw [List.isEmpty_iff, List.filter_eq_nil_iff] at hu
        simp only [Bool.false_eq_true, false_iff]
        rintro ⟨-, -, ⟨m, hm, hus⟩, -⟩
        exact hu m hm hus
      · rw [if_neg hu]
        rw [List.isEmpty_iff] at hb
        have hne : ((l.filter (·.is_bot)).map (·.date)) ≠ [] := by
          simpa using hb
        cases hmd : minDates ((l.filter (·.is_bot)).map (·.date)) with
        | none => exact absurd ((minDates_eq_none_iff _).mp hmd) hne
        | some fbt =>
            have hspec := (minDates_eq_some_iff _ fbt).mp hmd
            constructor
            · intro hdet
              have hdetB : (!(List.filter (fun m => decide (fbt < m.date))
                  (List.filter isUserContent l)).isEmpty) = true := hdet
              have hdet2 :
                  (List.filter (fun m => decide (fbt < m.date))
                    (List.filter isUserContent l)) ≠ [] := by
                intro hnil
                rw [hnil] at hdetB
                simp at hdetB
              rcases List.exists_mem_of_ne_nil _ hdet2 with ⟨u, hu2⟩
              rw [List.mem_filter, List.mem_filter] at hu2
              refine ⟨?_, ?_, ?_, fbt, rfl, u, hu2.1.1, hu2.1.2, ?_⟩
              · omega
              · have hm := hspec.1
                rw [List.mem_map] at hm
                rcases hm with ⟨b, hbmem, -⟩
                rw [List.mem_filter] at hbmem
                exact ⟨b, hbmem.1, hbmem.2⟩
              · have hu3 : (l.filter isUserContent) ≠ [] := by
                  simpa [List.isEmpty_iff] using hu
                rcases List.exists_mem_of_ne_nil _ hu3 with ⟨m, hm⟩
                rw [List.mem_filter] at hm
                exact ⟨m, hm.1, hm.2⟩
              · simpa using hu2.2
            · rintro ⟨-, -, -, t, hmd2, u, humem, hucontent, hlt⟩
              injection hmd2 with ht
              subst ht
              have hmem : u ∈ List.filter (fun m => decide (fbt < m.date))
                  (List.filter isUserContent l) := by
                rw [List.mem_filter, List.mem_filter]
                exact ⟨⟨humem, hucontent⟩, by simpa using hlt⟩
              show (!(List.filter (fun m => decide (fbt < m.date))
                  (List.filter isUserContent l)).isEmpty) = true
              cases hemp : (List.filter (fun m => decide (fbt < m.date))
                  (List.filter isUserContent l)).isEmpty
              · rfl
              · rw [List.isEmpty_iff] at hemp
                rw [hemp] at hmem
                simp at hmem

/-- C1: the Conversation Detector, on the messages fetched for one thread,
returns true iff the collected message count is at least two, there is a bot
message, there is a user message with content, and some user message with
content is strictly later than the earliest bot message. -/
theorem detector_returns_true_iff (raws : List RawMsg) :
    check_for_user_message_mtproto raws = true ↔
      (2 ≤ (collectMessages raws).length ∧
        (∃ m ∈ collectMessages raws, m.is_bot = true) ∧
        (∃ m ∈ collectMessages raws, isUserContent m = true) ∧
        ∃ t, earliestBotTime (collectMessages raws) = some t ∧
          ∃ u ∈ collectMessages raws, isUserContent u = true ∧ t < u.date) := by
  unfold check_for_user_message_mtproto
  rw [detectBody_iff]
  have hp := sortByDate_perm (collectMessages raws)
  have hE : earliestBotTime (sortByDate (collectMessages raws)) =
      earliestBotTime (collectMessages raws) := by
    unfold earliestBotTime
    exact minDates_perm ((hp.filter _).map _)
  rw [hp.length_eq, hE]
  simp only [hp.mem_iff]

/-! ## Ledger pruning and the default inbox pointer -/

/-- C8: after cleanup_old_state, an entry is in a ledger section iff it was
there before, its timestamp parsed, and it is not older than the seven-day
retention horizon; entries with unparsable timestamps are pruned. -/
theorem cleanup_old_state_prunes (now : Time) (s : DaemonState) (k : Key) (e : Entry) :
    ((k, e) ∈ (cleanup_old_state now s).processed ↔
      ((k, e) ∈ s.processed ∧
        ∃ ts, e.timestamp = some ts ∧ ¬ ts < now - STATE_CLEANUP_AGE_SECONDS)) ∧
    ((k, e) ∈ (cleanup_old_state now s).created_topics ↔
      ((k, e) ∈ s.created_topics ∧
        ∃ ts, e.timestamp = some ts ∧ ¬ ts < now - STATE_CLEANUP_AGE_SECONDS)) := by
  have hk : keepEntry now e = true ↔
      ∃ ts, e.timestamp = some ts ∧ ¬ ts < now - STATE_CLEANUP_AGE_SECONDS := by
    unfold keepEntry
    cases h : e.timestamp with
    | none => simp
    | some ts => simp
  constructor <;> simp [cleanup_old_state, List.mem_filter, hk]

/-- C10: a forum with no record in the persisted forum state is treated as
having inbox thread 1, by both lookup helpers. -/
theorem default_inbox_pointer (fs : ForumState) (chat_id : Int)
    (h : fs.lookup chat_id = none) :
    get_current_general fs chat_id = 1 ∧ get_current_general_topic fs chat_id = 1 := by
  unfold get_current_general get_current_general_topic
  rw [h]
  exact ⟨rfl, rfl⟩

/-- Witness for C10, on the empty state of a fresh install. -/
theorem default_inbox_pointer_witness :
    get_current_general [] 77 = 1 ∧ get_current_general_topic [] 77 = 1 :=
  default_inbox_pointer [] 77 rfl

/-! ## Association-list lemmas -/

theorem lookup_setKey_self {κ α : Type} [BEq κ] [LawfulBEq κ]
    (l : List (κ × α)) (k : κ) (v : α) : (setKey l k v).lookup k = some v := by
  induction l with
  | nil => simp [setKey, List.lookup]
  | cons hd tl ih =>
      obtain ⟨k0, v0⟩ := hd
      unfold setKey
      by_cases h : (k0 == k) = true
      · rw [if_pos h]
        simp [List.lookup]
      · rw [if_neg h]
        have h2 : (k == k0) = false := by
          rw [beq_eq_false_iff_ne]
          intro e
          exact h (beq_iff_eq.mpr e.symm)
        simp [List.lookup, h2, ih]

theorem lookup_setKey_ne {κ α : Type} [BEq κ] [LawfulBEq κ]
    (l : List (κ × α)) (k k' : κ) (v : α) (h : (k' == k) = false) :
    (setKey l k v).lookup k' = l.lookup k' := by
  induction l with
  | nil => simp [setKey, List.lookup, h]
  | cons hd tl ih =>
      obtain ⟨k0, v0⟩ := hd
      unfold setKey
      by_cases h0 : (k0 == k) = true
      · rw [if_pos h0]
        have hk0 : k0 = k := by exact eq_of_beq h0
        subst hk0
        simp [List.lookup, h]
      · rw [if_neg h0]
        simp only [List.lookup]
        cases hk : k' == k0
        · simp [ih]
        · simp

theorem lookup_filter_val_some {κ α : Type} [BEq κ]
    (l : List (κ × α)) (k : κ) (p : α → Bool) (v : α)
    (h : l.lookup k = some v) (hp : p v = true) :
    (l.filter (fun kv => p kv.2)).lookup k = some v := by
  induction l with
  | nil => simp [List.lookup] at h
  | cons hd tl ih =>
      obtain ⟨a, b⟩ := hd
      simp only [List.lookup] at h
      cases hk : k == a with
      | true =>
          rw [hk] at h
          simp only [Option.some.injEq] at h
          subst h
          rw [List.filter_cons]
          simp only [hp, if_pos]
          simp [List.lookup, hk]
      | false =>
          rw [hk] at h
          simp only at h
          rw [List.filter_cons]
          by_cases hpb : p b = true
          · simp only [hpb, if_pos]
            simp [List.lookup, hk, ih h]
          · simp only [Bool.not_eq_true] at hpb
            simp [hpb, ih h]

theorem lookup_filter_val_none {κ α : Type} [BEq κ]
    (l : List (κ × α)) (k : κ) (p : α → Bool)
    (h : l.lookup k = none) :
    (l.filter (fun kv => p kv.2)).lookup k = none := by
  induction l with
  | nil => simp [List.lookup]
  | cons hd tl ih =>
      obtain ⟨a, b⟩ := hd
      simp only [List.lookup] at h
      cases hk : k == a with
      | true => rw [hk] at h; simp at h
      | false =>
          rw [hk] at h
          simp only at h
          rw [List.filter_cons]
          by_cases hpb : p b = true
          · simp only [hpb, if_pos]
            simp [List.lookup, hk, ih h]
          · simp only [Bool.not_eq_true] at hpb
            simp [hpb, ih h]

/-! ## Atomic persistence -/

theorem append_tmp_ne (p : String) : p ++ ".tmp" ≠ p := by
  intro e
  have hlen := congrArg String.length e
  rw [String.length_append] at hlen
  have h4 : (".tmp" : String).length = 4 := rfl
  omega

/-- C9 (amended, provable half): save_state of the daemon writes through a
temp file and an atomic rename, so at every crash point the target document
is either the old or the new content. -/
theorem save_state_atomic (fs0 : FileSys) (path old c : String)
    (h : fs0.lookup path = some old) :
    ∀ st ∈ crashStates fs0 (save_state_ops path c),
      st.lookup path = some old ∨ st.lookup path = some c := by
  intro st hst
  have hne : (path == path ++ ".tmp") = false := by
    rw [beq_eq_false_iff_ne]
    exact fun e => append_tmp_ne path e.symm
  have hlist : crashStates fs0 (save_state_ops path c) =
      [fs0] ++
        c.toList.inits.map (fun pre => writeFs fs0 (path ++ ".tmp") (String.mk pre)) ++
        ([applyOp fs0 (.writeFile (path ++ ".tmp") c)] ++ [] ++
          [applyOp (applyOp fs0 (.writeFile (path ++ ".tmp") c))
            (.replaceFile (path ++ ".tmp") path)]) := rfl
  rw [hlist] at hst
  simp only [List.mem_append, List.mem_map, List.mem_singleton,
    List.mem_cons, List.not_mem_nil, or_false, false_or] at hst
  rcases hst with (hst | ⟨pre, -, hst⟩) | hst | hst
  · subst hst
    exact Or.inl h
  · subst hst
    left
    show (setKey fs0 (path ++ ".tmp") (String.mk pre)).lookup path = some old
    rw [lookup_setKey_ne _ _ _ _ hne]
    exact h
  · subst hst
    left
    show (setKey fs0 (path ++ ".tmp") c).lookup path = some old
    rw [lookup_setKey_ne _ _ _ _ hne]
    exact h
  · subst hst
    right
    show List.lookup path
        (match List.lookup (path ++ ".tmp") (setKey fs0 (path ++ ".tmp") c) with
         | some c1 =>
             writeFs (removeFs (setKey fs0 (path ++ ".tmp") c) (path ++ ".tmp")) path c1
         | none => setKey fs0 (path ++ ".tmp") c) = some c
    rw [lookup_setKey_self]
    exact lookup_setKey_self _ _ _

/-- Witness for C9: the daemon ledger document seen at the crash point right
after the temp write holds the old content. -/
theorem save_state_atomic_witness :
    (writeFs [("daemon_state.json", "docA")] ("daemon_state.json" ++ ".tmp")
        "docB").lookup "daemon_state.json" = some "docA" ∨
    (writeFs [("daemon_state.json", "docA")] ("daemon_state.json" ++ ".tmp")
        "docB").lookup "daemon_state.json" = some "docB" :=
  save_state_atomic [("daemon_state.json", "docA")] "daemon_state.json" "docA" "docB"
    (by decide)
    (writeFs [("daemon_state.json", "docA")] ("daemon_state.json" ++ ".tmp") "docB")
    (by decide)

/-- C9 counterexample: save_forum_state of auto_thread writes the target
directly, so a crash mid-write can leave a document that is neither the old
nor the new content (here the one-character torn prefix of docB). -/
theorem save_forum_state_not_atomic :
    [("forum_state.json", "d")] ∈
        crashStates fsC9 (save_forum_state_ops "forum_state.json" "docB") ∧
    List.lookup "forum_state.json" [("forum_state.json", "d")] ≠ some "docA" ∧
    List.lookup "forum_state.json" [("forum_state.json", "d")] ≠ some "docB" := by
  decide

/-! ## Title generator bounds -/

theorem truncEll_spec (s : List Char) (h : s ≠ []) :
    truncEll s ≠ [] ∧ (truncEll s).length ≤ 38 := by
  have hpos : 0 < s.length := List.length_pos.mpr h
  have hmin1 : 0 < min 35 s.length := lt_min_iff.mpr ⟨by omega, hpos⟩
  have hmin2 : min 35 s.length ≤ 35 := Nat.min_le_left _ _
  have h3 : (("..." : String).toList).length = 3 := rfl
  unfold truncEll
  by_cases h35 : 35 < s.length
  · rw [if_pos h35]
    constructor
    · intro hc
      have hl := congrArg List.length hc
      rw [List.length_append, List.length_take, h3] at hl
      simp only [List.length_nil] at hl
      omega
    · rw [List.length_append, List.length_take, h3]
      omega
  · rw [if_neg h35]
    constructor
    · intro hc
      have hl := congrArg List.length hc
      rw [List.length_append, List.length_take] at hl
      simp only [List.length_nil] at hl
      omega
    · rw [List.length_append, List.length_take]
      simp only [List.length_nil]
      omega

theorem firstSome_eq_some {α β : Type} (f : α → Option β) (l : List α) (b : β)
    (h : firstSome f l = some b) : ∃ a ∈ l, f a = some b := by
  induction l with
  | nil => simp [firstSome] at h
  | cons a rest ih =>
      unfold firstSome at h
      cases hfa : f a with
      | some r =>
          rw [hfa] at h
          simp only [Option.some.injEq] at h
          subst h
          exact ⟨a, List.mem_cons_self a rest, hfa⟩
      | none =>
          rw [hfa] at h
          simp only at h
          rcases ih h with ⟨a2, hmem, hfa2⟩
          exact ⟨a2, List.mem_cons_of_mem a hmem, hfa2⟩

theorem userTextTitle_spec (t : List Char) (r : List Char)
    (h : userTextTitle t = some r) : r ≠ [] ∧ r.length ≤ 38 := by
  unfold userTextTitle at h
  by_cases hg : greetingTokens.contains (pyLower (pyStrip t)) = true
  · rw [if_pos hg] at h
    cases h
  · rw [if_neg hg] at h
    by_cases hq : t.contains '?' = true
    · rw [if_pos hq] at h
      by_cases h5 : 5 < (pyStrip (takeUntilSub ['?'] t) ++ ['?']).length
      · rw [if_pos h5] at h
        simp only [Option.some.injEq] at h
        subst h
        apply truncEll_spec
        intro e
        have hl := congrArg List.length e
        rw [List.length_append, List.length_singleton] at hl
        simp only [List.length_nil] at hl
        omega
      · rw [if_neg h5] at h
        simp only at h
        by_cases h10 : 10 < t.length
        · rw [if_pos h10] at h
          by_cases hf : 5 < (pyStrip (takeUntilSub ['.'] (takeUntilSub ['\n'] t))).length
          · rw [if_pos hf] at h
            simp only [Option.some.injEq] at h
            subst h
            apply truncEll_spec
            intro e
            rw [e] at hf
            simp at hf
          · rw [if_neg hf] at h
            cases h
        · rw [if_neg h10] at h
          cases h
    · rw [if_neg hq] at h
      simp only at h
      by_cases h10 : 10 < t.length
      · rw [if_pos h10] at h
        by_cases hf : 5 < (pyStrip (takeUntilSub ['.'] (takeUntilSub ['\n'] t))).length
        · rw [if_pos hf] at h
          simp only [Option.some.injEq] at h
          subst h
          apply truncEll_spec
          intro e
          rw [e] at hf
          simp at hf
        · rw [if_neg hf] at h
          cases h
      · rw [if_neg h10] at h
        cases h

theorem boldTitle_spec (line : List Char) (r : List Char)
    (h : boldTitle line = some r) : r ≠ [] ∧ r.length ≤ 38 := by
  unfold boldTitle at h
  by_cases hb : (starStar.isPrefixOf line && containsSub starStar (line.drop 2)) = true
  · rw [if_pos hb] at h
    by_cases h3 : 3 < (takeUntilSub starStar (line.drop 2)).length
    · rw [if_pos h3] at h
      simp only [Option.some.injEq] at h
      subst h
      apply truncEll_spec
      intro e
      rw [e] at h3
      simp at h3
    · rw [if_neg h3] at h
      cases h
  · rw [if_neg hb] at h
    cases h

theorem colonTitle_spec (line : List Char) (r : List Char)
    (h : colonTitle line = some r) : r ≠ [] ∧ r.length ≤ 38 := by
  unfold colonTitle at h
  by_cases hc : (15 < line.length && (line.take 30).contains ':') = true
  · rw [if_pos hc] at h
    by_cases ht : (5 < (pyStrip (takeUntilSub [':'] line)).length
        && !("http".toList.isPrefixOf (pyLower (pyStrip (takeUntilSub [':'] line))))
        && !("note".toList.isPrefixOf (pyLower (pyStrip (takeUntilSub [':'] line))))) = true
    · rw [if_pos ht] at h
      simp only [Option.some.injEq] at h
      subst h
      have h5 : 5 < (pyStrip (takeUntilSub [':'] line)).length := by
        have := ht
        rw [Bool.and_assoc, Bool.and_eq_true, decide_eq_true_eq] at this
        exact this.1
      have hmin1 : 0 < min 35 (pyStrip (takeUntilSub [':'] line)).length :=
        lt_min_iff.mpr ⟨by omega, by omega⟩
      have hmin2 : min 35 (pyStrip (takeUntilSub [':'] line)).length ≤ 35 :=
        Nat.min_le_left _ _
      constructor
      · intro e
        have hl := congrArg List.length e
        rw [List.length_take] at hl
        simp only [List.length_nil] at hl
        omega
      · rw [List.length_take]
        omega
    · rw [if_neg ht] at h
      cases h
  · rw [if_neg hc] at h
    cases h

theorem titleFromBotLine_spec (line : List Char) (r : List Char)
    (h : titleFromBotLine line = some r) : r ≠ [] ∧ r.length ≤ 38 := by
  unfold titleFromBotLine at h
  cases hb : boldTitle (pyStrip line) with
  | some r2 =>
      rw [hb] at h
      simp only [Option.some.injEq] at h
      subst h
      exact boldTitle_spec _ _ hb
  | none =>
      rw [hb] at h
      simp only at h
      exact colonTitle_spec _ _ h

theorem titleFromBotText_spec (t : List Char) (r : List Char)
    (h : titleFromBotText t = some r) : r ≠ [] ∧ r.length ≤ 38 := by
  unfold titleFromBotText at h
  by_cases hg : botGreetPrefixes.any (fun w => w.isPrefixOf (pyLower t)) = true
  · rw [if_pos hg] at h
    cases h
  · rw [if_neg hg] at h
    rcases firstSome_eq_some _ _ _ h with ⟨line, -, hline⟩
    exact titleFromBotLine_spec _ _ hline

theorem pad2_length (n : Nat) : (pad2 n).length = 2 := rfl

theorem monthAbbrev_length (m : Nat) : (monthAbbrev m).length = 3 := by
  unfold monthAbbrev
  by_cases h : m - 1 < monthNames.length
  · rw [List.getD_eq_getElem _ _ h]
    have hall : ∀ s ∈ monthNames, s.length = 3 := by decide
    exact hall _ (List.getElem_mem h)
  · rw [List.getD_eq_default _ _ (by omega)]
    rfl

theorem strftimeBdHM_length (t : Time) : (strftimeBdHM t).length = 12 := by
  unfold strftimeBdHM
  simp only [List.length_append, pad2_length, monthAbbrev_length,
    List.length_singleton]

/-- C5 (amended): the Title Generator is total; for every input message set
and clock it returns a non-empty string of at most 38 characters (35
characters of content plus a three-character ellipsis). -/
theorem generate_topic_name_bounded (raws : List RawMsg) (now : Time) :
    generate_topic_name raws now ≠ "" ∧ (generate_topic_name raws now).length ≤ 38 := by
  have hmk : ∀ r : List Char, r ≠ [] → String.mk r ≠ "" := by
    intro r hr e
    apply hr
    have := congrArg String.data e
    simpa using this
  have hV : ("Voice chat ".toList).length = 11 := by decide
  have hC : ("Chat ".toList).length = 5 := by decide
  cases hu : titleFromUserTexts (collectTexts raws).1 with
  | some r =>
      rcases firstSome_eq_some _ _ _ hu with ⟨t, -, ht⟩
      have hspec := userTextTitle_spec _ _ ht
      constructor
      · simp only [generate_topic_name, hu]
        exact hmk r hspec.1
      · simp only [generate_topic_name, hu]
        exact hspec.2
  | none =>
      cases hb : firstSome titleFromBotText (collectTexts raws).2.1 with
      | some r =>
          rcases firstSome_eq_some _ _ _ hb with ⟨t, -, ht⟩
          have hspec := titleFromBotText_spec _ _ ht
          constructor
          · simp only [generate_topic_name, hu, hb]
            exact hmk r hspec.1
          · simp only [generate_topic_name, hu, hb]
            exact hspec.2
      | none =>
          cases hv : ((collectTexts raws).2.2 && (collectTexts raws).1.isEmpty) with
          | true =>
              constructor
              · simp only [generate_topic_name, hu, hb, hv, if_true]
                exact hmk _ (by simp)
              · simp only [generate_topic_name, hu, hb, hv, if_true]
                show ("Voice chat ".toList ++ strftimeBdHM now).length ≤ 38
                rw [List.length_append, strftimeBdHM_length, hV]
                omega
          | false =>
              constructor
              · simp only [generate_topic_name, hu, hb, hv, Bool.false_eq_true,
                  if_false]
                exact hmk _ (by simp)
              · simp only [generate_topic_name, hu, hb, hv, Bool.false_eq_true,
                  if_false]
                show ("Chat ".toList ++ strftimeBdHM now).length ≤ 38
                rw [List.length_append, strftimeBdHM_length, hC]
                omega

/-- C5 counterexample: on a 41-character user question the Title Generator
returns 38 characters, more than the 35 the claim allows. -/
theorem generate_topic_name_exceeds_35 :
    35 < (generate_topic_name rawsC5 0).length := by decide

/-- C6: on the literal messages hi and the DNS question, the Title Generator
returns the question truncated to 35 characters followed by the ellipsis; in
particular the result starts with the 35-character truncation of the
question. -/
theorem title_determinism_dns :
    generate_topic_name rawsC6 0 =
        String.mk (dnsQuestion.toList.take 35 ++ "...".toList) ∧
    (dnsQuestion.toList.take 35).isPrefixOf (generate_topic_name rawsC6 0).toList = true := by
  decide

/-! ## Reconciliation tick theorems -/

/-- When the cached inbox topic is listed and open, ensure_general_exists
keeps it and performs no side effect. -/
theorem ensure_noop (env : Env) (fs0 : ForumState) (ds0 : DaemonState)
    (chat_id : Int) (cfg : ForumConfig) (g : Nat) (tp : Topic)
    (hg : get_current_general fs0 chat_id = g)
    (ht : env.topics.find? (fun t => t.id == g) = some tp)
    (hopen : tp.closed = false) :
    ensure_general_exists env fs0 ds0 chat_id cfg = (g, fs0, ds0, []) := by
  simp only [ensure_general_exists, hg, ht, hopen, Bool.false_eq_true, if_false]

theorem cleanup_keeps_last (now : Time) (s : DaemonState) :
    (cleanup_old_state now s).last_autothread_timestamp = s.last_autothread_timestamp := rfl

/-- C2 (amended): once a processed ledger entry with a parsable timestamp
younger than the retention horizon exists for the exact pair of forum and
inbox thread, a tick that still resolves that open, unprotected inbox skips
as processed: no rename, no create, no state write, states unchanged. -/
theorem processed_guard_idempotent
    (env : Env) (fs0 : ForumState) (ds0 : DaemonState) (chat_id : Int)
    (cfg : ForumConfig) (g : Nat) (tp : Topic) (e : Entry) (ts : Time)
    (hg : get_current_general fs0 chat_id = g)
    (ht : env.topics.find? (fun t => t.id == g) = some tp)
    (hopen : tp.closed = false)
    (hprot : g ∉ cfg.persistent_topics)
    (hproc : ds0.processed.lookup (chat_id, g) = some e)
    (hts : e.timestamp = some ts)
    (hyoung : ¬ ts < env.now - STATE_CLEANUP_AGE_SECONDS) :
    tick env fs0 ds0 chat_id cfg = (.skippedProcessed, fs0, ds0, []) := by
  have hens := ensure_noop env fs0 ds0 chat_id cfg g tp hg ht hopen
  have hkeep : keepEntry env.now e = true := by
    unfold keepEntry
    rw [hts]
    simpa using hyoung
  have hlook : ((cleanup_old_state env.now ds0).processed).lookup (chat_id, g) = some e := by
    unfold cleanup_old_state
    exact lookup_filter_val_some _ _ _ _ hproc hkeep
  unfold tick
  rw [hens]
  simp only [if_neg hprot, hlook, Option.isSome_some, if_true]

/-- C2 counterexample, refuting the claim as frozen: dsStale holds a
processed entry for forum 10, thread 5, but it is older than the retention
horizon, so the next tick prunes it, passes the idempotence guard, and
transitions again, renaming inbox thread 5 a second time instead of
skipping. -/
theorem processed_entry_stale_retransitions :
    (tick envConv fsMain dsStale 10 cfgEmpty).1 = TickResult.transitioned ∧
    Mutation.renameThread 10 5 (generate_topic_name convRaws 1000000) true
      ∈ (tick envConv fsMain dsStale 10 cfgEmpty).2.2.2 := by decide

/-- Witness for C2 on a one-second-old processed entry. -/
theorem processed_guard_idempotent_witness :
    tick envConv fsMain dsFresh 10 cfgEmpty =
      (.skippedProcessed, fsMain, dsFresh, []) :=
  processed_guard_idempotent envConv fsMain dsFresh 10 cfgEmpty 5 topic5
    entryFresh 999999 (by decide) (by decide) (by decide) (by decide)
    (by decide) (by decide) (by decide)

/-- C4: while the cached inbox is an open thread in protected_thread_ids,
the tick skips before detection with no mutation and no state change, and
every iterated tick does the same. -/
theorem protected_inbox_never_archived
    (env : Env) (fs0 : ForumState) (ds0 : DaemonState) (chat_id : Int)
    (cfg : ForumConfig) (g : Nat) (tp : Topic)
    (hg : get_current_general fs0 chat_id = g)
    (ht : env.topics.find? (fun t => t.id == g) = some tp)
    (hopen : tp.closed = false)
    (hprot : g ∈ cfg.persistent_topics) :
    tick env fs0 ds0 chat_id cfg = (.skippedProtected, fs0, ds0, []) ∧
    ∀ n, runTicks env chat_id cfg n fs0 ds0 =
      (fs0, ds0, List.replicate n TickResult.skippedProtected) := by
  have hens := ensure_noop env fs0 ds0 chat_id cfg g tp hg ht hopen
  have h1 : tick env fs0 ds0 chat_id cfg = (.skippedProtected, fs0, ds0, []) := by
    unfold tick
    rw [hens]
    simp only [if_pos hprot]
  refine ⟨h1, ?_⟩
  intro n
  induction n with
  | zero => rfl
  | succ k ih =>
      unfold runTicks
      rw [h1]
      simp only [ih, List.replicate_succ]

/-- Witness for C4: three ticks over a protected inbox all skip even though
the thread holds a qualifying conversation. -/
theorem protected_inbox_never_archived_witness :
    check_for_user_message_mtproto envConv.raws = true ∧
    runTicks envConv 10 cfgProt 3 fsMain {} =
      (fsMain, {}, List.replicate 3 TickResult.skippedProtected) :=
  ⟨by decide,
    (protected_inbox_never_archived envConv fsMain {} 10 cfgProt 5 topic5
      (by decide) (by decide) (by decide) (by decide)).2 3⟩

/-- C3 (amended): on a partial transition where the rename succeeds and the
create-thread call fails, the exception escapes the tick before any ledger
write: the tick reports the error, the persisted forum and daemon documents
are unchanged, and the only mutations are the successful rename and the
failed create, with no daemon-state save; the next tick therefore sees no
processed entry for the pair. -/
theorem create_failure_writes_no_ledger
    (env : Env) (fs0 : ForumState) (ds0 : DaemonState) (chat_id : Int)
    (cfg : ForumConfig) (g : Nat) (tp : Topic)
    (hg : get_current_general fs0 chat_id = g)
    (ht : env.topics.find? (fun t => t.id == g) = some tp)
    (hopen : tp.closed = false)
    (hprot : g ∉ cfg.persistent_topics)
    (hproc : (cleanup_old_state env.now ds0).processed = [])
    (hcreated : (cleanup_old_state env.now ds0).created_topics.lookup (chat_id, g) = none)
    (hlast : ds0.last_autothread_timestamp = none)
    (hconv : check_for_user_message_mtproto env.raws = true)
    (hrename : env.renameOk = true)
    (hcreate : env.createOk = false) :
    tick env fs0 ds0 chat_id cfg =
      (.errored, fs0, ds0,
        [Mutation.renameThread chat_id g (generate_topic_name env.raws env.now) true,
         Mutation.createThread chat_id "General" false]) := by
  have hens := ensure_noop env fs0 ds0 chat_id cfg g tp hg ht hopen
  unfold tick
  rw [hens]
  simp only [if_neg hprot, hproc, hcreated, List.lookup_nil, Option.isSome_none,
    Bool.false_eq_true, if_false, List.any_nil, cleanup_keeps_last, hlast,
    hconv, Bool.not_true, auto_thread, hcreate, hrename, Bool.not_false,
    if_true, List.nil_append]

/-- Witness for C3: the concrete failing-create tick. -/
theorem create_failure_writes_no_ledger_witness :
    tick envC3 fsMain {} 10 cfgEmpty =
      (.errored, fsMain, {},
        [Mutation.renameThread 10 5 (generate_topic_name envC3.raws envC3.now) true,
         Mutation.createThread 10 "General" false]) :=
  create_failure_writes_no_ledger envC3 fsMain {} 10 cfgEmpty 5 topic5
    (by decide) (by decide) (by decide) (by decide) (by decide) (by decide)
    (by decide) (by decide) (by decide) (by decide)

/-- C3 counterexample, refuting the claim as frozen: on the failing-create
tick the processed ledger entry is NOT written — the persisted daemon state
still has no entry for the pair after the tick. -/
theorem create_failure_ledger_not_written :
    (tick envC3 fsMain {} 10 cfgEmpty).1 = TickResult.errored ∧
    ((tick envC3 fsMain {} 10 cfgEmpty).2.2.1).processed.lookup (10, 5) = none ∧
    (tick envC3 fsMain {} 10 cfgEmpty).2.2.2 =
      [Mutation.renameThread 10 5 (generate_topic_name convRaws 1000000) true,
       Mutation.createThread 10 "General" false] := by decide

/-- C7: with a created ledger entry for the current open inbox pair, a tick
whose entry is younger than the 15-second cooldown skips before detection
with no mutation, and a tick whose entry is at least 15 seconds old is never
skipped by the create-cooldown guard. -/
theorem created_cooldown_guard
    (env : Env) (fs0 : ForumState) (ds0 : DaemonState) (chat_id : Int)
    (cfg : ForumConfig) (g : Nat) (tp : Topic) (e : Entry) (ts : Time)
    (hg : get_current_general fs0 chat_id = g)
    (ht : env.topics.find? (fun t => t.id == g) = some tp)
    (hopen : tp.closed = false)
    (hclean : (cleanup_old_state env.now ds0).created_topics.lookup (chat_id, g) = some e)
    (hts : e.timestamp = some ts) :
    (env.now - ts < COOLDOWN_AFTER_CREATE_SECONDS →
      g ∉ cfg.persistent_topics →
      (cleanup_old_state env.now ds0).processed.lookup (chat_id, g) = none →
      tick env fs0 ds0 chat_id cfg = (.skippedCreatedCooldown, fs0, ds0, [])) ∧
    (COOLDOWN_AFTER_CREATE_SECONDS ≤ env.now - ts →
      (tick env fs0 ds0 chat_id cfg).1 ≠ TickResult.skippedCreatedCooldown) := by
  have hens := ensure_noop env fs0 ds0 chat_id cfg g tp hg ht hopen
  constructor
  · intro hyoung hprot hnone
    unfold tick
    rw [hens]
    simp only [if_neg hprot, hnone, Option.isSome_none, Bool.false_eq_true,
      if_false, hclean, hts, decide_eq_true_eq, if_pos hyoung]
  · intro hold
    have hdec : decide (env.now - ts < COOLDOWN_AFTER_CREATE_SECONDS) = false :=
      decide_eq_false (not_lt.mpr hold)
    unfold tick
    rw [hens]
    by_cases hp : g ∈ cfg.persistent_topics
    · simp only [if_pos hp]
      intro hc
      cases hc
    · simp only [if_neg hp]
      by_cases hq :
          (((cleanup_old_state env.now ds0).processed).lookup (chat_id, g)).isSome = true
      · simp only [hq, if_true]
        intro hc
        cases hc
      · simp only [Bool.not_eq_true] at hq
        simp only [hq, Bool.false_eq_true, if_false, hclean, hts, hdec]
        split
        · intro hc
          cases hc
        · split
          · intro hc
            cases hc
          · split
            · intro hc
              cases hc
            · split <;> intro hc <;> cases hc

/-- Witness for C7: the five-second-old entry makes the tick skip; the
twenty-second-old entry does not trigger the create-cooldown guard. -/
theorem created_cooldown_guard_witness :
    tick envConv fsMain dsC7young 10 cfgEmpty =
      (.skippedCreatedCooldown, fsMain, dsC7young, []) ∧
    (tick envConv fsMain dsC7old 10 cfgEmpty).1 ≠ TickResult.skippedCreatedCooldown :=
  ⟨(created_cooldown_guard envConv fsMain dsC7young 10 cfgEmpty 5 topic5
      entryC7young 999995 (by decide) (by decide) (by decide) (by decide)
      (by decide)).1 (by decide) (by decide) (by decide),
   (created_cooldown_guard envConv fsMain dsC7old 10 cfgEmpty 5 topic5
      entryC7old 999980 (by decide) (by decide) (by decide) (by decide)
      (by decide)).2 (by decide)⟩

end Neon
